import Mathlib

/-!
# Verification of the journal-prompts prompt content repository

A shallow embedding of the prompt-loading, normalization, selection and
deep-link resolution logic of the journal-prompts web application
(`src/yaml-parser.ts` and the deep-link / selection methods of
`src/main.ts`), together with theorems checking the natural-language
specification against it.

Modelling conventions:
* JavaScript objects used as string-keyed maps become ordered association
  lists (`List (String × _)`); property insertion order is list order.
* A dynamic property lookup that may yield `undefined` becomes `Option`.
* JavaScript truthiness on strings (`''` is falsy) is modelled explicitly
  by `jsTruthy` / `jsOrStr`.
* `Math.random()` results become rational parameters `r : ℚ` with
  `0 ≤ r < 1`; an unbounded re-sampling loop consumes an explicit list of
  further draws and yields `none` when the list is exhausted (modelling
  non-termination) — a `some` result is exactly a run of the loop that
  returns.
* Thrown exceptions become `Except String` errors (the loaders) or `none`
  results (would-be `TypeError`s on `undefined` member access).
* `fetch` of the source documents becomes an environment (`SourceEnv`)
  mapping each source to its parsed content, `none` standing for a failed
  transport or an unparseable body.
-/

namespace JournalPrompts

/-- Canonical prompt record (`Prompt` in `src/types.ts`). -/
structure Prompt where
  id : String
  category : String
  prompt : String
  purpose : String
deriving Repr, DecidableEq

/-- Type `CategoryGroup` in `src/types.ts`: a JavaScript object mapping a
category display name to an array of prompts, modelled as an ordered
association list. -/
abbrev CategoryGroup := List (String × List Prompt)

/-- One translation record (`PromptTranslation` in `src/types.ts`). -/
structure PromptTranslation where
  prompt : String
  purpose : String
deriving Repr, DecidableEq

/-- A prompt of the Clean schema (`CleanPrompt`): a local numeric sequence
number plus one translation record per language code (the TS interface's
index signature `[languageCode: string]: PromptTranslation | number`). -/
structure CleanPrompt where
  id : Int
  translations : List (String × PromptTranslation)
deriving Repr, DecidableEq

/-- A category of the Clean schema: per-language display names (the index
signature of `CleanCategory`) and an optional prompts array (`none` models
a missing or non-array `prompts` property). -/
structure CleanCategory where
  names : List (String × String)
  prompts : Option (List CleanPrompt)
deriving Repr, DecidableEq

/-- Type `CleanPromptsData`: categories keyed by raw category identifier. -/
structure CleanPromptsData where
  categories : List (String × CleanCategory)
deriving Repr, DecidableEq

/-- A category of the Nested schema (`Category` in `src/types.ts`). -/
structure Category where
  id : String
  translations : List (String × String)
deriving Repr, DecidableEq

/-- A prompt of the Nested schema (`MultilingualPrompt`). -/
structure MultilingualPrompt where
  id : Int
  category_id : String
  translations : List (String × PromptTranslation)
deriving Repr, DecidableEq

/-- Type `PromptsData`: the Nested schema's top level. -/
structure PromptsData where
  categories : List Category
  prompts : List MultilingualPrompt
deriving Repr, DecidableEq

/-- A parsed Legacy document: one self-contained single-language prompt
(`yaml.load(doc) as Prompt` in `loadPromptsLegacy`). -/
structure LegacyDoc where
  id : String
  category : String
  prompt : String
  purpose : String
deriving Repr, DecidableEq

/-- The unified source document (`./journal-prompts.yaml`) as seen through
the two casts applied to it: `yaml.load(yamlText) as CleanPromptsData`
passing `loadPromptsFromCleanStructure`'s shape check (`asClean`), and
`yaml.load(yamlText) as PromptsData` passing
`loadPromptsFromNestedStructure`'s shape check (`asNested`); `none` means
the respective check would throw. -/
structure YamlDoc where
  asClean : Option CleanPromptsData
  asNested : Option PromptsData
deriving Repr, DecidableEq

/-- The fetch environment: content of the unified file, and the content
served for `./prompts_${language}.yaml` as a function of the verbatim
`language` string interpolated into the URL. `none` models a failed fetch
(`!response.ok`) or an unparseable body. -/
structure SourceEnv where
  unified : Option YamlDoc
  legacyFetch : String → Option (List LegacyDoc)

/-- JavaScript truthiness restricted to optional strings: `undefined` and
`''` are falsy, so `a || b` chains skip both. -/
def jsOrStr (o : Option String) : Option String :=
  match o with
  | some s => if s = "" then none else some s
  | none => none

/-- Association-list lookup (`obj[key]` on a plain JS object). -/
def alookup {α : Type} (l : List (String × α)) (k : String) : Option α :=
  (l.find? (fun kv => kv.1 = k)).map Prod.snd

/-- Category display name in the Clean loader:
`(category[languageCode] as string) || (category.en as string) || categoryId`. -/
def cleanCategoryName (categoryId : String) (cat : CleanCategory)
    (langCode : String) : String :=
  match jsOrStr (alookup cat.names langCode) with
  | some s => s
  | none =>
    match jsOrStr (alookup cat.names "en") with
    | some s => s
    | none => categoryId

/-- The Clean loader's per-translation validity check:
`!translation || typeof translation !== 'object' || !translation.prompt || !translation.purpose`
(an empty string is falsy, hence invalid). -/
def cleanValidTranslation (o : Option PromptTranslation) :
    Option PromptTranslation :=
  match o with
  | some t => if t.prompt = "" ∨ t.purpose = "" then none else some t
  | none => none

/-- Per-prompt body of `loadPromptsFromCleanStructure`'s inner loop:
requested-language translation if valid, else the English fallback if
valid, else `none` (the prompt is skipped). The produced id is
`` `${categoryId}${cleanPrompt.id}` ``. -/
def cleanPromptResolve (categoryId categoryName langCode : String)
    (cp : CleanPrompt) : Option Prompt :=
  match cleanValidTranslation (alookup cp.translations langCode) with
  | some t =>
    some ⟨categoryId ++ toString cp.id, categoryName,
          t.prompt.trim, t.purpose.trim⟩
  | none =>
    match cleanValidTranslation (alookup cp.translations "en") with
    | some t =>
      some ⟨categoryId ++ toString cp.id, categoryName,
            t.prompt.trim, t.purpose.trim⟩
    | none => none

/-- One category's contribution in `loadPromptsFromCleanStructure`: a
category with a missing prompts array is skipped entirely. -/
def cleanCategoryPrompts (kv : String × CleanCategory) (langCode : String) :
    List Prompt :=
  match kv.2.prompts with
  | none => []
  | some ps =>
    ps.filterMap
      (cleanPromptResolve kv.1 (cleanCategoryName kv.1 kv.2 langCode) langCode)

/-- The flat `prompts` array built by `loadPromptsFromCleanStructure`
before grouping (iteration over `Object.entries(data.categories)`). -/
def cleanCollect (data : CleanPromptsData) (langCode : String) : List Prompt :=
  data.categories.flatMap (fun kv => cleanCategoryPrompts kv langCode)

/-- The `grouped[prompt.category]` push step of the grouping loop shared by all
three loaders: append to the existing bucket, else add a new key at the
end (JS object insertion order). -/
def pushToGroup (g : CategoryGroup) (p : Prompt) : CategoryGroup :=
  if (List.find? (fun kv => kv.1 = p.category) g).isSome then
    g.map (fun kv => if kv.1 = p.category then (kv.1, kv.2 ++ [p]) else kv)
  else
    g ++ [(p.category, [p])]

/-- The `prompts.forEach` grouping loop shared by all three loaders. -/
def groupByCategory (ps : List Prompt) : CategoryGroup :=
  ps.foldl pushToGroup []

/-- All of `Object.values(categoryGroups)` flattened: the union of all groups in
insertion order (as built in `loadRandomPromptFromAnyCategory`). -/
def allPromptsOf (g : CategoryGroup) : List Prompt :=
  (g.map Prod.snd).flatten

/-- The key list of a grouped catalog (`Object.keys`). -/
def groupKeys (g : CategoryGroup) : List String := g.map Prod.fst

/-- Function `loadPromptsFromCleanStructure`: shape-check failure throws, otherwise
the flat prompt list is built with `language.toLowerCase()` and grouped. -/
def loadPromptsFromCleanStructure (doc : YamlDoc) (language : String) :
    Except String CategoryGroup :=
  match doc.asClean with
  | none => .error "Invalid clean prompts data structure - missing categories"
  | some data => .ok (groupByCategory (cleanCollect data language.toLower))

/-- Lookup `categoryMap.get` after the `data.categories.forEach(c => map.set(c.id, c))`
loop: `Map.set` overwrites, so the last category with a given id wins. -/
def nestedCategoryLookup (cats : List Category) (cid : String) :
    Option Category :=
  cats.reverse.find? (fun c => c.id = cid)

/-- Per-prompt translation resolution of `loadPromptsFromNestedStructure`:
only presence is checked (`!translation` — any object is truthy). The id
is `` `${multiPrompt.category_id}${multiPrompt.id}` ``. -/
def nestedPromptResolve (categoryName langCode : String)
    (mp : MultilingualPrompt) : Option Prompt :=
  match alookup mp.translations langCode with
  | some t =>
    some ⟨mp.category_id ++ toString mp.id, categoryName,
          t.prompt.trim, t.purpose.trim⟩
  | none =>
    match alookup mp.translations "en" with
    | some t =>
      some ⟨mp.category_id ++ toString mp.id, categoryName,
            t.prompt.trim, t.purpose.trim⟩
    | none => none

/-- The flat prompt list of `loadPromptsFromNestedStructure`: a prompt
whose `category_id` resolves to no category is skipped; the category name
falls back `languageCode → en → category_id` with JS truthiness. -/
def nestedCollect (data : PromptsData) (langCode : String) : List Prompt :=
  data.prompts.filterMap (fun mp =>
    match nestedCategoryLookup data.categories mp.category_id with
    | none => none
    | some category =>
      let categoryName :=
        match jsOrStr (alookup category.translations langCode) with
        | some s => s
        | none =>
          match jsOrStr (alookup category.translations "en") with
          | some s => s
          | none => mp.category_id
      nestedPromptResolve categoryName langCode mp)

/-- Function `loadPromptsFromNestedStructure`. -/
def loadPromptsFromNestedStructure (doc : YamlDoc) (language : String) :
    Except String CategoryGroup :=
  match doc.asNested with
  | none =>
    .error "Invalid nested prompts data structure - missing prompts or categories"
  | some data => .ok (groupByCategory (nestedCollect data language.toLower))

/-- Function `loadPromptsFromUnified`: fetch the unified file, try the Clean
normalizer, and on any thrown error fall back to the Nested normalizer on
the same text. -/
def loadPromptsFromUnified (src : Option YamlDoc) (language : String) :
    Except String CategoryGroup :=
  match src with
  | none => .error "Failed to fetch unified prompts"
  | some doc =>
    match loadPromptsFromCleanStructure doc language with
    | .ok g => .ok g
    | .error _ => loadPromptsFromNestedStructure doc language

/-- The per-document normalization of `loadPromptsLegacy` (`documents.map`):
the id and category are taken verbatim from the parsed document. -/
def legacyNormalizeDoc (doc : LegacyDoc) : Prompt :=
  ⟨doc.id, doc.category, doc.prompt.trim, doc.purpose.trim⟩

/-- Function `loadPromptsLegacy` given the content fetched from
`` `./prompts_${language}.yaml` `` (the `language` string is used only to
pick the URL, verbatim, with its original case). -/
def loadPromptsLegacy (src : Option (List LegacyDoc)) :
    Except String CategoryGroup :=
  match src with
  | none => .error "Failed to fetch legacy prompts"
  | some docs => .ok (groupByCategory (docs.map legacyNormalizeDoc))

/-- Function `loadPrompts`: try the unified file (Clean then Nested); on any thrown
error fall back to the legacy per-language file; the outer catch rethrows,
so a failing legacy attempt fails the whole load. -/
def loadPrompts (env : SourceEnv) (language : String) :
    Except String CategoryGroup :=
  match loadPromptsFromUnified env.unified language with
  | .ok g => .ok g
  | .error _ => loadPromptsLegacy (env.legacyFetch language)

/-- Function `findPromptById` in `src/yaml-parser.ts`: scan categories in order,
first prompt with the requested id wins. -/
def findPromptById (g : CategoryGroup) (id : String) : Option Prompt :=
  match g with
  | [] => none
  | (_, ps) :: rest =>
    match ps.find? (fun p => p.id = id) with
    | some p => some p
    | none => findPromptById rest id

/-- Function `getRandomPrompt` in `src/yaml-parser.ts`:
`prompts[Math.floor(Math.random() * prompts.length)]`, with the draw
`r = Math.random()` made explicit and the possibly-`undefined` array
access modelled by `Option`. -/
def getRandomPrompt (prompts : List Prompt) (r : ℚ) : Option Prompt :=
  prompts.get? (Int.floor (r * prompts.length)).toNat

/-- The `while (newPrompt.prompt === this.currentPrompt.prompt)` re-sampling
loop of `selectNewPrompt`: each iteration consumes one further random draw;
an exhausted draw list models a non-terminating run. -/
def retryLoop (prompts : List Prompt) (current : Prompt) :
    Prompt → List ℚ → Option Prompt
  | cand, [] => if cand.prompt = current.prompt then none else some cand
  | cand, r :: rest =>
    if cand.prompt = current.prompt then
      match getRandomPrompt prompts r with
      | none => none
      | some np => retryLoop prompts current np rest
    else some cand

/-- The pinned branch of `selectNewPrompt` (`src/main.ts`): sample once,
then re-sample while the text equals the current prompt's text — but only
when `prompts.length > 1` and a current prompt exists. -/
def selectNewPromptPinned (prompts : List Prompt)
    (currentPrompt : Option Prompt) (r0 : ℚ) (rs : List ℚ) : Option Prompt :=
  match getRandomPrompt prompts r0 with
  | none => none
  | some newPrompt =>
    if 1 < prompts.length then
      match currentPrompt with
      | some current => retryLoop prompts current newPrompt rs
      | none => some newPrompt
    else some newPrompt

/-- Method `loadRandomPromptFromAnyCategory` (`src/main.ts`): flatten
`Object.values(this.categoryGroups)` and sample once; `none` models the
"no prompts, nothing displayed" branch. No exclusion of the current
prompt happens on this path. -/
def loadRandomPromptFromAnyCategory (g : CategoryGroup) (r : ℚ) :
    Option Prompt :=
  if 0 < (allPromptsOf g).length then getRandomPrompt (allPromptsOf g) r
  else none

/-- Method `selectNewPrompt` (`src/main.ts`), with the state fields that decide
the branch (`isPinned`, `currentCategory`, `currentPrompt`) made explicit;
the URL-clearing side effects do not affect the selected prompt. A pinned
but absent category means `this.categoryGroups[this.currentCategory]` is
`undefined` and the subsequent access crashes (`none`). -/
def selectNewPrompt (g : CategoryGroup) (isPinned : Bool)
    (currentCategory : String) (currentPrompt : Option Prompt)
    (r0 : ℚ) (rs : List ℚ) : Option Prompt :=
  if isPinned ∧ currentCategory ≠ "" then
    match alookup g currentCategory with
    | none => none
    | some prompts => selectNewPromptPinned prompts currentPrompt r0 rs
  else
    loadRandomPromptFromAnyCategory g r0

/-- The query parameters read by `handleDeepLink`
(`params.get('id')`, `params.get('category')`, `params.get('prompt')`). -/
structure QueryParams where
  id : Option String
  category : Option String
  prompt : Option String
deriving Repr, DecidableEq

/-- The observable outcome of `handleDeepLink`: its boolean result and the
state it leaves behind (what got displayed, the resulting
`currentCategory` — `none` meaning untouched —, the final pinned flag, the
deep-link flag, and whether the invalid parameters were stripped from the
address). -/
structure DeepLinkOutcome where
  handled : Bool
  displayed : Option Prompt
  currentCategory : Option String
  pinned : Bool
  wasOpenedWithDeepLink : Bool
  urlCleared : Bool
deriving Repr, DecidableEq

/-- Method `handleDeepLink` (`src/main.ts`): id lookup first, then the legacy
`category`+`prompt` text-prefix path, then the category-only fallback
(which is the only branch that pins), else a complete failure that strips
the invalid parameters. `pinned₀` is the pinned flag on entry (`false` on
startup); `decode` is `decodeURIComponent`; `r` is the random draw used by
`selectCategory` in the category-only branch. A `none` result models the
crash on `getRandomPrompt` returning `undefined` for an empty bucket. -/
def handleDeepLink (g : CategoryGroup) (params : QueryParams)
    (decode : String → String) (r : ℚ) (pinned₀ : Bool) :
    Option DeepLinkOutcome :=
  let idHit : Option Prompt :=
    match jsOrStr params.id with
    | some pid => findPromptById g pid
    | none => none
  match idHit with
  | some prompt =>
    some ⟨true, some prompt, some prompt.category, pinned₀, true, false⟩
  | none =>
    let prefixHit : Option Prompt :=
      match jsOrStr params.category, jsOrStr params.prompt with
      | some c, some pre =>
        match alookup g c with
        | some prompts => prompts.find? (fun p => p.prompt.startsWith (decode pre))
        | none => none
      | _, _ => none
    match prefixHit with
    | some matchingPrompt =>
      some ⟨true, some matchingPrompt, some matchingPrompt.category,
            pinned₀, true, false⟩
    | none =>
      match jsOrStr params.category with
      | some c =>
        match alookup g c with
        | some prompts =>
          match getRandomPrompt prompts r with
          | some sp => some ⟨true, some sp, some sp.category, true, true, false⟩
          | none => none
        | none => some ⟨false, none, none, pinned₀, false, true⟩
      | none =>
        some ⟨false, none, none, pinned₀, false, (jsOrStr params.id).isSome⟩

/-! ## Helper lemmas -/

/-- The sampled index `⌊r * length⌋` is in bounds for `0 ≤ r < 1` on a
non-empty list, so `getRandomPrompt` returns an element of the list. -/
lemma getRandomPrompt_mem (prompts : List Prompt) (r : ℚ)
    (h0 : 0 ≤ r) (h1 : r < 1) (hne : prompts ≠ []) :
    ∃ p, getRandomPrompt prompts r = some p ∧ p ∈ prompts := by
  have hlen : 0 < prompts.length := List.length_pos.mpr hne
  have hlenQ : (0 : ℚ) < (prompts.length : ℚ) := by exact_mod_cast hlen
  have hmul0 : (0 : ℚ) ≤ r * (prompts.length : ℚ) :=
    mul_nonneg h0 (le_of_lt hlenQ)
  have hmul1 : r * (prompts.length : ℚ) < (prompts.length : ℚ) := by
    calc r * (prompts.length : ℚ) < 1 * (prompts.length : ℚ) :=
          mul_lt_mul_of_pos_right h1 hlenQ
      _ = (prompts.length : ℚ) := one_mul _
  have hfl0 : 0 ≤ Int.floor (r * (prompts.length : ℚ)) :=
    Int.floor_nonneg.mpr hmul0
  have hflt : Int.floor (r * (prompts.length : ℚ)) < (prompts.length : ℤ) := by
    have h2 : ((Int.floor (r * (prompts.length : ℚ))) : ℚ) <
        ((prompts.length : ℤ) : ℚ) := by
      exact_mod_cast lt_of_le_of_lt (Int.floor_le _) hmul1
    exact_mod_cast h2
  have hidx : (Int.floor (r * (prompts.length : ℚ))).toNat < prompts.length := by
    omega
  refine ⟨prompts.get ⟨_, hidx⟩, ?_, List.get_mem _ _ _⟩
  simp [getRandomPrompt, List.get?_eq_get hidx]

/-- Whenever the re-sampling loop returns a prompt, its text differs from
the current prompt's text. -/
lemma retryLoop_ne (prompts : List Prompt) (current : Prompt) :
    ∀ (rs : List ℚ) (cand p : Prompt),
      retryLoop prompts current cand rs = some p →
      p.prompt ≠ current.prompt := by
  intro rs
  induction rs with
  | nil =>
    intro cand p h
    by_cases hc : cand.prompt = current.prompt
    · simp [retryLoop, hc] at h
    · simp only [retryLoop, hc, if_false] at h
      obtain rfl : cand = p := by simpa using h
      exact hc
  | cons r rest ih =>
    intro cand p h
    by_cases hc : cand.prompt = current.prompt
    · simp only [retryLoop, hc, if_true] at h
      cases hg : getRandomPrompt prompts r with
      | none => rw [hg] at h; simp at h
      | some np => rw [hg] at h; exact ih np p h
    · simp only [retryLoop, hc, if_false] at h
      obtain rfl : cand = p := by simpa using h
      exact hc

/-- Lower-casing the literal `"EN"` (evaluated through `String.map_eq`,
since `String.mapAux` does not reduce definitionally). -/
lemma toLower_EN : "EN".toLower = "en" := by
  rw [String.toLower, String.map_eq]
  decide

/-- Lower-casing the literal `"en"` is the identity. -/
lemma toLower_en : "en".toLower = "en" := by
  rw [String.toLower, String.map_eq]
  decide

lemma allPromptsOf_nil : allPromptsOf [] = [] := rfl

lemma allPromptsOf_cons (kv : String × List Prompt) (rest : CategoryGroup) :
    allPromptsOf (kv :: rest) = kv.2 ++ allPromptsOf rest := by
  simp [allPromptsOf]

/-- Pushing a prompt whose category differs from the head key skips the
head. -/
lemma pushToGroup_cons_ne (kv : String × List Prompt) (rest : CategoryGroup)
    (p : Prompt) (h : ¬ kv.1 = p.category) :
    pushToGroup (kv :: rest) p = kv :: pushToGroup rest p := by
  have hfind : List.find? (fun kv => kv.1 = p.category) (kv :: rest)
      = List.find? (fun kv => kv.1 = p.category) rest := by
    simp [List.find?_cons, h]
  by_cases hf : (List.find? (fun kv => kv.1 = p.category) rest).isSome
  · simp [pushToGroup, hfind, hf, h]
  · simp [pushToGroup, hfind, hf, h]

/-- Pushing a prompt whose category matches the head key (and no later
key) appends it to the head bucket. -/
lemma pushToGroup_cons_eq (kv : String × List Prompt) (rest : CategoryGroup)
    (p : Prompt) (hk : kv.1 = p.category)
    (hrest : ∀ kv' ∈ rest, ¬ kv'.1 = p.category) :
    pushToGroup (kv :: rest) p = (kv.1, kv.2 ++ [p]) :: rest := by
  have hmap : rest.map
      (fun kv => if kv.1 = p.category then (kv.1, kv.2 ++ [p]) else kv) = rest := by
    have := List.map_congr_left (l := rest)
      (f := fun kv => if kv.1 = p.category then (kv.1, kv.2 ++ [p]) else kv)
      (g := id) (fun a ha => by simp [hrest a ha])
    simpa using this
  simp [pushToGroup, List.find?_cons, hk, hmap]

/-- The keys after a push: unchanged if the category was already present,
otherwise the category is appended. -/
lemma groupKeys_pushToGroup (g : CategoryGroup) (p : Prompt) :
    groupKeys (pushToGroup g p) =
      if (List.find? (fun kv => kv.1 = p.category) g).isSome then groupKeys g
      else groupKeys g ++ [p.category] := by
  by_cases hf : (List.find? (fun kv => kv.1 = p.category) g).isSome
  · simp only [pushToGroup, hf, if_true, groupKeys, List.map_map]
    refine List.map_congr_left (fun a _ => ?_)
    by_cases ha : a.1 = p.category <;> simp [ha]
  · simp [pushToGroup, hf, groupKeys]

lemma nodup_groupKeys_pushToGroup (g : CategoryGroup) (p : Prompt)
    (h : (groupKeys g).Nodup) : (groupKeys (pushToGroup g p)).Nodup := by
  rw [groupKeys_pushToGroup]
  by_cases hf : (List.find? (fun kv => kv.1 = p.category) g).isSome
  · simpa [hf] using h
  · have hnone : List.find? (fun kv => kv.1 = p.category) g = none := by
      cases hfind : List.find? (fun kv => kv.1 = p.category) g with
      | none => rfl
      | some x => rw [hfind] at hf; simp at hf
    have hnotmem : p.category ∉ groupKeys g := by
      intro hmem
      obtain ⟨kv, hkv, hfst⟩ := List.mem_map.mp hmem
      have := List.find?_eq_none.mp hnone kv hkv
      simp [hfst] at this
    simp [hf, List.nodup_append, h, hnotmem]

/-- A push adds exactly the pushed prompt to the flattened catalog, up to
permutation, provided the keys are distinct. -/
lemma allPromptsOf_pushToGroup (p : Prompt) :
    ∀ (g : CategoryGroup), (groupKeys g).Nodup →
      List.Perm (allPromptsOf (pushToGroup g p)) (allPromptsOf g ++ [p]) := by
  intro g
  induction g with
  | nil => intro _; simp [pushToGroup, allPromptsOf]
  | cons kv rest ih =>
    intro hnd
    have hnd' : (groupKeys rest).Nodup := (List.nodup_cons.mp hnd).2
    by_cases hk : kv.1 = p.category
    · have hnotmem : kv.1 ∉ groupKeys rest := (List.nodup_cons.mp hnd).1
      have hrest : ∀ kv' ∈ rest, ¬ kv'.1 = p.category := by
        intro kv' hkv' hcontra
        exact hnotmem (hk ▸ hcontra ▸ List.mem_map_of_mem Prod.fst hkv')
      rw [pushToGroup_cons_eq kv rest p hk hrest]
      rw [allPromptsOf_cons, allPromptsOf_cons]
      rw [List.append_assoc, List.append_assoc]
      exact List.Perm.append_left kv.2 List.perm_append_comm
    · rw [pushToGroup_cons_ne kv rest p hk]
      rw [allPromptsOf_cons, allPromptsOf_cons]
      rw [List.append_assoc]
      exact List.Perm.append_left kv.2 (ih hnd')

/-- The grouping loop preserves the flattened catalog up to permutation. -/
lemma allPromptsOf_foldl (ps : List Prompt) :
    ∀ (g : CategoryGroup), (groupKeys g).Nodup →
      List.Perm (allPromptsOf (ps.foldl pushToGroup g)) (allPromptsOf g ++ ps) := by
  induction ps with
  | nil => intro g _; simp
  | cons p ps ih =>
    intro g hnd
    have h1 := ih (pushToGroup g p) (nodup_groupKeys_pushToGroup g p hnd)
    have h2 : List.Perm (allPromptsOf (pushToGroup g p) ++ ps)
        ((allPromptsOf g ++ [p]) ++ ps) :=
      List.Perm.append_right ps (allPromptsOf_pushToGroup p g hnd)
    have h3 : (allPromptsOf g ++ [p]) ++ ps = allPromptsOf g ++ (p :: ps) := by
      simp
    exact (h1.trans h2).trans (by rw [h3])

/-- The union of the grouped catalog is a permutation of the flat prompt
list it was built from. -/
lemma allPromptsOf_groupByCategory (ps : List Prompt) :
    List.Perm (allPromptsOf (groupByCategory ps)) ps := by
  have := allPromptsOf_foldl ps [] (by simp [groupKeys])
  simpa [allPromptsOf] using this

/-- A push preserves the every-prompt-matches-its-key invariant. -/
lemma pushToGroup_categories (g : CategoryGroup) (p : Prompt)
    (h : ∀ kv ∈ g, ∀ q ∈ kv.2, q.category = kv.1) :
    ∀ kv ∈ pushToGroup g p, ∀ q ∈ kv.2, q.category = kv.1 := by
  unfold pushToGroup
  by_cases hf : (List.find? (fun kv => kv.1 = p.category) g).isSome
  · simp only [hf, if_true]
    intro kv hkv q hq
    obtain ⟨kv₀, hkv₀, hmap⟩ := List.mem_map.mp hkv
    by_cases hk : kv₀.1 = p.category
    · rw [if_pos hk] at hmap
      subst hmap
      simp only at hq ⊢
      rcases List.mem_append.mp hq with hq | hq
      · exact h kv₀ hkv₀ q hq
      · simp at hq; subst hq; exact hk.symm
    · rw [if_neg hk] at hmap
      subst hmap
      exact h kv₀ hkv₀ q hq
  · simp only [hf, if_false]
    intro kv hkv q hq
    rcases List.mem_append.mp hkv with hkv | hkv
    · exact h kv hkv q hq
    · simp at hkv
      subst hkv
      simp at hq
      subst hq
      rfl

/-- Every prompt in every bucket of `groupByCategory ps` has the bucket's
key as its category. -/
lemma groupByCategory_categories (ps : List Prompt) :
    ∀ kv ∈ groupByCategory ps, ∀ q ∈ kv.2, q.category = kv.1 := by
  have main : ∀ (ps : List Prompt) (g : CategoryGroup),
      (∀ kv ∈ g, ∀ q ∈ kv.2, q.category = kv.1) →
      ∀ kv ∈ ps.foldl pushToGroup g, ∀ q ∈ kv.2, q.category = kv.1 := by
    intro ps
    induction ps with
    | nil => intro g hg; simpa using hg
    | cons p ps ih =>
      intro g hg
      exact ih (pushToGroup g p) (pushToGroup_categories g p hg)
  exact main ps [] (by simp)

/-! ## Claim theorems -/

/-- C10: for every non-empty prompt list and every random draw
`0 ≤ r < 1`, `getRandomPrompt` returns an element of the list: the
sampled index `⌊r * length⌋` is always within bounds, so under the
non-emptiness precondition the out-of-range access branch is unreachable
(on an empty list the access would be out of bounds). -/
theorem c10_getRandomPrompt_safe (prompts : List Prompt) (r : ℚ)
    (h0 : 0 ≤ r) (h1 : r < 1) (hne : prompts ≠ []) :
    ∃ p, getRandomPrompt prompts r = some p ∧ p ∈ prompts :=
  getRandomPrompt_mem prompts r h0 h1 hne

/-- Witness for C10 at a concrete list and draw. -/
theorem c10_witness :
    ∃ p, getRandomPrompt [⟨"B1", "Bio", "t", "u"⟩] (1/2) = some p ∧
      p ∈ [(⟨"B1", "Bio", "t", "u"⟩ : Prompt)] :=
  c10_getRandomPrompt_safe [⟨"B1", "Bio", "t", "u"⟩] (1/2)
    (by norm_num) (by norm_num) (by simp)

/-- C1: every prompt produced by the Clean normalizer has id
`categoryId ++ toString n` for its category identifier and local sequence
number (no separator); the Nested normalizer likewise produces
`category_id ++ toString id`; and the Legacy normalizer copies the
document's composite id verbatim, so a legacy document whose stored id is
`C ++ toString n` yields exactly that id. -/
theorem c1_id_reconstruction :
    (∀ (categoryId categoryName langCode : String) (cp : CleanPrompt)
        (p : Prompt),
        cleanPromptResolve categoryId categoryName langCode cp = some p →
        p.id = categoryId ++ toString cp.id)
    ∧ (∀ (categoryName langCode : String) (mp : MultilingualPrompt)
        (p : Prompt),
        nestedPromptResolve categoryName langCode mp = some p →
        p.id = mp.category_id ++ toString mp.id)
    ∧ (∀ (doc : LegacyDoc) (c : String) (n : Int),
        doc.id = c ++ toString n →
        (legacyNormalizeDoc doc).id = c ++ toString n) := by
  refine ⟨?_, ?_, ?_⟩
  · intro categoryId categoryName langCode cp p h
    unfold cleanPromptResolve at h
    cases h1 : cleanValidTranslation (alookup cp.translations langCode) with
    | some t =>
      rw [h1] at h
      injection h with h'
      subst h'
      rfl
    | none =>
      rw [h1] at h
      cases h2 : cleanValidTranslation (alookup cp.translations "en") with
      | some t =>
        rw [h2] at h
        injection h with h'
        subst h'
        rfl
      | none => rw [h2] at h; exact absurd h (by simp)
  · intro categoryName langCode mp p h
    unfold nestedPromptResolve at h
    cases h1 : alookup mp.translations langCode with
    | some t =>
      rw [h1] at h
      injection h with h'
      subst h'
      rfl
    | none =>
      rw [h1] at h
      cases h2 : alookup mp.translations "en" with
      | some t =>
        rw [h2] at h
        injection h with h'
        subst h'
        rfl
      | none => rw [h2] at h; exact absurd h (by simp)
  · intro doc c n h
    simpa [legacyNormalizeDoc] using h

/-- Witness for C1: category identifier `"B"`, sequence `1`, in all three
normalizers. -/
theorem c1_witness :
    (⟨"B1", "Bio", "t".trim, "u".trim⟩ : Prompt).id = "B" ++ toString (1 : Int)
    ∧ (⟨"B1", "Biografie", "t".trim, "u".trim⟩ : Prompt).id = "B" ++ toString (1 : Int)
    ∧ (legacyNormalizeDoc ⟨"B1", "Bio", "t", "u"⟩).id = "B" ++ toString (1 : Int) := by
  refine ⟨?_, ?_, ?_⟩
  · exact c1_id_reconstruction.1 "B" "Bio" "en"
      ⟨1, [("en", ⟨"t", "u"⟩)]⟩ ⟨"B1", "Bio", "t".trim, "u".trim⟩ (by rfl)
  · exact c1_id_reconstruction.2.1 "Biografie" "de"
      ⟨1, "B", [("de", ⟨"t", "u"⟩)]⟩ ⟨"B1", "Biografie", "t".trim, "u".trim⟩ (by rfl)
  · exact c1_id_reconstruction.2.2 ⟨"B1", "Bio", "t", "u"⟩ "B" 1 rfl

/-- C3: the pinned-branch prompt selection (`selectNewPrompt` with a
pinned category): with more than one prompt available and a current
prompt, any prompt it returns has text different from the current
prompt's text (the re-sampling loop only exits on a differing text); with
exactly one prompt and a valid draw it always returns that prompt, even
when its text equals the current prompt's. -/
theorem c3_selectNewPrompt_no_repeat :
    (∀ (prompts : List Prompt) (current : Prompt) (r0 : ℚ) (rs : List ℚ)
        (p : Prompt),
        1 < prompts.length →
        selectNewPromptPinned prompts (some current) r0 rs = some p →
        p.prompt ≠ current.prompt)
    ∧ (∀ (q current : Prompt) (r0 : ℚ) (rs : List ℚ),
        0 ≤ r0 → r0 < 1 →
        selectNewPromptPinned [q] (some current) r0 rs = some q) := by
  constructor
  · intro prompts current r0 rs p hlen h
    unfold selectNewPromptPinned at h
    cases hg : getRandomPrompt prompts r0 with
    | none => rw [hg] at h; exact absurd h (by simp)
    | some np =>
      rw [hg] at h
      simp only [hlen, if_true] at h
      exact retryLoop_ne prompts current rs np p h
  · intro q current r0 rs h0 h1
    have hfl : Int.floor r0 = 0 :=
      Int.floor_eq_zero_iff.mpr (Set.mem_Ico.mpr ⟨h0, h1⟩)
    have hg : getRandomPrompt [q] r0 = some q := by
      simp [getRandomPrompt, hfl]
    simp [selectNewPromptPinned, hg]

/-- Witness for C3: a two-prompt category where the first draw repeats
the current text and the second draw escapes; and a one-prompt category
returning its only prompt although the text matches. -/
theorem c3_witness :
    (⟨"A2", "A", "b", "u"⟩ : Prompt).prompt ≠ (⟨"A1", "A", "a", "u"⟩ : Prompt).prompt
    ∧ selectNewPromptPinned [⟨"A1", "A", "a", "u"⟩]
        (some ⟨"Z1", "Z", "a", "u"⟩) 0 [] = some ⟨"A1", "A", "a", "u"⟩ := by
  constructor
  · refine c3_selectNewPrompt_no_repeat.1
      [⟨"A1", "A", "a", "u"⟩, ⟨"A2", "A", "b", "u"⟩]
      ⟨"A1", "A", "a", "u"⟩ 0 [(2:ℚ)⁻¹] ⟨"A2", "A", "b", "u"⟩ (by simp) ?_
    have e1 : getRandomPrompt
        [(⟨"A1", "A", "a", "u"⟩ : Prompt), ⟨"A2", "A", "b", "u"⟩] 0
        = some ⟨"A1", "A", "a", "u"⟩ := by
      simp [getRandomPrompt]
    have hmul : ((2:ℚ)⁻¹) *
        (([(⟨"A1", "A", "a", "u"⟩ : Prompt), ⟨"A2", "A", "b", "u"⟩].length : ℚ)) = 1 := by
      norm_num
    have e2 : getRandomPrompt
        [(⟨"A1", "A", "a", "u"⟩ : Prompt), ⟨"A2", "A", "b", "u"⟩] ((2:ℚ)⁻¹)
        = some ⟨"A2", "A", "b", "u"⟩ := by
      rw [getRandomPrompt, hmul]
      simp
    simp [selectNewPromptPinned, e1, retryLoop, e2]
  · exact c3_selectNewPrompt_no_repeat.2 ⟨"A1", "A", "a", "u"⟩
      ⟨"Z1", "Z", "a", "u"⟩ 0 [] (by norm_num) (by norm_num)

/-- C4 counterexample: the any-category path applies no exclusion. With
the two-prompt catalog `{A: [A1], B: [B1]}`, current prompt `A1` and draw
`0`, the unpinned `selectNewPrompt` returns `A1` itself — a prompt whose
text equals the excluded prompt's text — although the union has more than
one element. -/
theorem c4_counterexample :
    1 < (allPromptsOf [("A", [⟨"A1", "A", "same", "u"⟩]),
                       ("B", [⟨"B1", "B", "other", "u"⟩])]).length
    ∧ selectNewPrompt [("A", [⟨"A1", "A", "same", "u"⟩]),
                       ("B", [⟨"B1", "B", "other", "u"⟩])]
        false "" (some ⟨"A1", "A", "same", "u"⟩) 0 []
        = some ⟨"A1", "A", "same", "u"⟩
    ∧ (⟨"A1", "A", "same", "u"⟩ : Prompt).prompt
        = (⟨"A1", "A", "same", "u"⟩ : Prompt).prompt := by
  refine ⟨by simp [allPromptsOf], ?_, rfl⟩
  simp [selectNewPrompt, loadRandomPromptFromAnyCategory, allPromptsOf,
        getRandomPrompt]

/-- C4 amended: the unpinned branch of `selectNewPrompt` ignores the
current prompt entirely — it samples once from the union of all
categories with no exclusion — and, for a valid draw on a non-empty
union, returns some element of the union. -/
theorem c4_any_category_no_exclusion :
    (∀ (g : CategoryGroup) (currentCategory : String)
        (currentPrompt : Option Prompt) (r0 : ℚ) (rs : List ℚ),
        selectNewPrompt g false currentCategory currentPrompt r0 rs =
          loadRandomPromptFromAnyCategory g r0)
    ∧ (∀ (g : CategoryGroup) (r : ℚ), 0 ≤ r → r < 1 →
        allPromptsOf g ≠ [] →
        ∃ p, loadRandomPromptFromAnyCategory g r = some p ∧
          p ∈ allPromptsOf g) := by
  constructor
  · intro g currentCategory currentPrompt r0 rs
    simp [selectNewPrompt]
  · intro g r h0 h1 hne
    have hlen : 0 < (allPromptsOf g).length := List.length_pos.mpr hne
    obtain ⟨p, hp, hmem⟩ := getRandomPrompt_mem (allPromptsOf g) r h0 h1 hne
    exact ⟨p, by simp [loadRandomPromptFromAnyCategory, hlen, hp], hmem⟩

/-- Witness for the amended C4 at a concrete catalog. -/
theorem c4_witness :
    selectNewPrompt [("A", [⟨"A1", "A", "a", "u"⟩])] false "Z"
        (some ⟨"A1", "A", "a", "u"⟩) 0 []
      = loadRandomPromptFromAnyCategory [("A", [⟨"A1", "A", "a", "u"⟩])] 0
    ∧ ∃ p, loadRandomPromptFromAnyCategory
        [("A", [⟨"A1", "A", "a", "u"⟩])] 0 = some p ∧
        p ∈ allPromptsOf [("A", [⟨"A1", "A", "a", "u"⟩])] :=
  ⟨c4_any_category_no_exclusion.1 [("A", [⟨"A1", "A", "a", "u"⟩])] "Z"
      (some ⟨"A1", "A", "a", "u"⟩) 0 [],
   c4_any_category_no_exclusion.2 [("A", [⟨"A1", "A", "a", "u"⟩])] 0
      (by norm_num) (by norm_num) (by simp [allPromptsOf])⟩

/-- C2 counterexample: a unified document whose Clean interpretation has
one category with no prompts array (so the Clean normalizer succeeds with
an empty `CategoryGroup`) while its Nested interpretation holds a
translatable prompt. The chain returns Clean's empty group — a normalizer
that succeeds with an empty `CategoryGroup` still wins, and the chain does
not proceed to Nested. -/
theorem c2_counterexample :
    loadPromptsFromUnified
        (some ⟨some ⟨[("A", ⟨[("en", "Alpha")], none⟩)]⟩,
               some ⟨[⟨"A", [("en", "Alpha")]⟩],
                     [⟨1, "A", [("en", ⟨"x", "y"⟩)]⟩]⟩⟩) "EN"
      = .ok []
    ∧ loadPromptsFromNestedStructure
        ⟨some ⟨[("A", ⟨[("en", "Alpha")], none⟩)]⟩,
         some ⟨[⟨"A", [("en", "Alpha")]⟩],
               [⟨1, "A", [("en", ⟨"x", "y"⟩)]⟩]⟩⟩ "EN"
      = .ok [("Alpha", [⟨"A1", "Alpha", "x".trim, "y".trim⟩])] := by
  have hnested : loadPromptsFromNestedStructure
      ⟨some ⟨[("A", ⟨[("en", "Alpha")], none⟩)]⟩,
       some ⟨[⟨"A", [("en", "Alpha")]⟩],
             [⟨1, "A", [("en", ⟨"x", "y"⟩)]⟩]⟩⟩ "EN"
      = .ok [("Alpha", [⟨"A1", "Alpha", "x".trim, "y".trim⟩])] := by
    have hid : "A" ++ toString (1 : Int) = "A1" := by decide
    simp [loadPromptsFromNestedStructure, toLower_EN, nestedCollect,
          nestedCategoryLookup, nestedPromptResolve, alookup, jsOrStr,
          groupByCategory, pushToGroup, hid]
  refine ⟨?_, hnested⟩
  simp [loadPromptsFromUnified, loadPromptsFromCleanStructure, cleanCollect,
        cleanCategoryPrompts, groupByCategory]

/-- C2 amended: `loadPrompts` attempts Clean, then Nested, then Legacy, in
that fixed order, and returns the result of the first normalizer that
succeeds (does not throw) — regardless of whether the returned
`CategoryGroup` is empty. A missing unified source skips directly to
Legacy. -/
theorem c2_loader_chain_order :
    ∀ (env : SourceEnv) (language : String),
      (env.unified = none →
        loadPrompts env language = loadPromptsLegacy (env.legacyFetch language))
      ∧ (∀ doc, env.unified = some doc →
          (∀ g, loadPromptsFromCleanStructure doc language = .ok g →
            loadPrompts env language = .ok g)
          ∧ (∀ e, loadPromptsFromCleanStructure doc language = .error e →
              (∀ g, loadPromptsFromNestedStructure doc language = .ok g →
                loadPrompts env language = .ok g)
              ∧ (∀ e', loadPromptsFromNestedStructure doc language = .error e' →
                  loadPrompts env language =
                    loadPromptsLegacy (env.legacyFetch language)))) := by
  intro env language
  constructor
  · intro h
    simp [loadPrompts, loadPromptsFromUnified, h]
  · intro doc hdoc
    constructor
    · intro g hg
      simp [loadPrompts, loadPromptsFromUnified, hdoc, hg]
    · intro e he
      constructor
      · intro g hg
        simp [loadPrompts, loadPromptsFromUnified, hdoc, he, hg]
      · intro e' he'
        simp [loadPrompts, loadPromptsFromUnified, hdoc, he, he']

/-- Witness for the amended C2: with no unified source at all, the chain
falls through to the Legacy loader. -/
theorem c2_witness :
    loadPrompts ⟨none, fun _ => none⟩ "EN"
      = loadPromptsLegacy ((fun _ => none : String → Option (List LegacyDoc)) "EN") :=
  (c2_loader_chain_order ⟨none, fun _ => none⟩ "EN").1 rfl

/-- C7: if the unified path fails (Clean and Nested both throw, or the
unified fetch itself fails) and the Legacy path also fails (transport
failure or otherwise), then `loadPrompts` surfaces an error to the caller
and never returns a catalog. -/
theorem c7_all_normalizers_fail (env : SourceEnv) (language : String)
    (e₁ e₂ : String)
    (h1 : loadPromptsFromUnified env.unified language = .error e₁)
    (h2 : loadPromptsLegacy (env.legacyFetch language) = .error e₂) :
    loadPrompts env language = .error e₂
    ∧ ∀ g, loadPrompts env language ≠ .ok g := by
  have hload : loadPrompts env language = .error e₂ := by
    simp [loadPrompts, h1, h2]
  exact ⟨hload, fun g h => by rw [hload] at h; exact absurd h (by simp)⟩

/-- Witness for C7: both sources missing (transport failure on both
URLs). -/
theorem c7_witness :
    loadPrompts ⟨none, fun _ => none⟩ "EN"
      = .error "Failed to fetch legacy prompts"
    ∧ ∀ g, loadPrompts ⟨none, fun _ => none⟩ "EN" ≠ .ok g :=
  c7_all_normalizers_fail ⟨none, fun _ => none⟩ "EN"
    "Failed to fetch unified prompts" "Failed to fetch legacy prompts"
    rfl rfl

/-- C9 counterexample: the Legacy path is not case-insensitive in the
requested language. The language string is interpolated verbatim into the
legacy URL, so an environment that serves `prompts_EN.yaml` but has no
`prompts_en.yaml` makes `loadPrompts` succeed for `"EN"` and fail for
`"EN".toLower = "en"` — different results for the two spellings. -/
theorem c9_counterexample :
    loadPrompts
        ⟨none, fun s => if s = "EN" then some [⟨"B1", "Bio", "t", "u"⟩] else none⟩
        "EN"
      ≠ loadPrompts
        ⟨none, fun s => if s = "EN" then some [⟨"B1", "Bio", "t", "u"⟩] else none⟩
        ("EN".toLower) := by
  have h1 : loadPrompts
      ⟨none, fun s => if s = "EN" then some [⟨"B1", "Bio", "t", "u"⟩] else none⟩
      "EN"
      = .ok (groupByCategory ([⟨"B1", "Bio", "t", "u"⟩].map legacyNormalizeDoc)) := by
    simp [loadPrompts, loadPromptsFromUnified, loadPromptsLegacy]
  have h2 : loadPrompts
      ⟨none, fun s => if s = "EN" then some [⟨"B1", "Bio", "t", "u"⟩] else none⟩
      ("EN".toLower)
      = .error "Failed to fetch legacy prompts" := by
    rw [toLower_EN]
    simp [loadPrompts, loadPromptsFromUnified, loadPromptsLegacy]
  intro h
  rw [h1, h2] at h
  exact absurd h (by simp)

/-- C9 amended: the Clean and Nested normalizers (and hence the unified
path) lower-case the requested language before any matching, so any two
spellings with the same lower-casing load identically there; the Legacy
loader, however, uses the language string only verbatim in its source URL
and does no translation matching at all, so case-insensitivity does not
extend to the Legacy path (see the counterexample). -/
theorem c9_case_insensitive_unified :
    ∀ (doc : YamlDoc) (L L' : String), L.toLower = L'.toLower →
      loadPromptsFromCleanStructure doc L = loadPromptsFromCleanStructure doc L'
      ∧ loadPromptsFromNestedStructure doc L = loadPromptsFromNestedStructure doc L'
      ∧ loadPromptsFromUnified (some doc) L = loadPromptsFromUnified (some doc) L' := by
  intro doc L L' h
  refine ⟨?_, ?_, ?_⟩
  · simp [loadPromptsFromCleanStructure, h]
  · simp [loadPromptsFromNestedStructure, h]
  · simp [loadPromptsFromUnified, loadPromptsFromCleanStructure,
          loadPromptsFromNestedStructure, h]

/-- Witness for the amended C9: `"EN"` and `"en"` load identically through
the unified path. -/
theorem c9_witness :
    loadPromptsFromCleanStructure ⟨none, none⟩ "EN"
      = loadPromptsFromCleanStructure ⟨none, none⟩ "en"
    ∧ loadPromptsFromNestedStructure ⟨none, none⟩ "EN"
      = loadPromptsFromNestedStructure ⟨none, none⟩ "en"
    ∧ loadPromptsFromUnified (some ⟨none, none⟩) "EN"
      = loadPromptsFromUnified (some ⟨none, none⟩) "en" :=
  c9_case_insensitive_unified ⟨none, none⟩ "EN" "en"
    (by rw [toLower_EN, toLower_en])

/-- C5 counterexample: resolving a deep link by id does not pin. Against
the catalog `{Bio: [B1]}` with parameters `{id: "B1", category: "Bio",
prompt: "x"}` and the startup pinned state `false`, `handleDeepLink`
resolves to prompt `B1` and its category, but the resulting pinned flag is
`false`, not `true` — only the category-only fallback branch calls
`setPinned(true)`. -/
theorem c5_counterexample :
    handleDeepLink [("Bio", [⟨"B1", "Bio", "t", "u"⟩])]
        ⟨some "B1", some "Bio", some "x"⟩ id 0 false
      = some ⟨true, some ⟨"B1", "Bio", "t", "u"⟩, some "Bio", false, true, false⟩
    ∧ (⟨true, some ⟨"B1", "Bio", "t", "u"⟩, some "Bio", false, true, false⟩ :
        DeepLinkOutcome).pinned = false := by
  refine ⟨?_, rfl⟩
  simp [handleDeepLink, jsOrStr, findPromptById]

/-- C5 amended: when an `id` parameter is present (and truthy) and
`findPromptById` succeeds, `handleDeepLink` resolves to that prompt and
its category regardless of any other parameters, marks the session as
deep-linked, and leaves the pinned flag unchanged (hence `false` on
startup) — the id path takes precedence over the `category` and `prompt`
parameters but never pins. -/
theorem c5_id_precedence :
    ∀ (g : CategoryGroup) (params : QueryParams) (decode : String → String)
      (r : ℚ) (pinned₀ : Bool) (pid : String) (p : Prompt),
      jsOrStr params.id = some pid →
      findPromptById g pid = some p →
      handleDeepLink g params decode r pinned₀
        = some ⟨true, some p, some p.category, pinned₀, true, false⟩ := by
  intro g params decode r pinned₀ pid p hid hfind
  simp [handleDeepLink, hid, hfind]

/-- Witness for the amended C5: a concrete catalog and parameter set with
extra `category` and `prompt` parameters present. -/
theorem c5_witness :
    handleDeepLink [("Bio", [⟨"B1", "Bio", "t", "u"⟩])]
        ⟨some "B1", some "Other", some "pre"⟩ id (1/2) false
      = some ⟨true, some ⟨"B1", "Bio", "t", "u"⟩, some "Bio", false, true, false⟩ :=
  c5_id_precedence [("Bio", [⟨"B1", "Bio", "t", "u"⟩])]
    ⟨some "B1", some "Other", some "pre"⟩ id (1/2) false "B1"
    ⟨"B1", "Bio", "t", "u"⟩ (by rfl) (by rfl)

/-- C8 counterexample: the loaders do not enforce id uniqueness. A Clean
document whose category `B` lists two prompts with the same local
sequence number `1` loads successfully, and the union of the resulting
groups' ids contains `"B1"` twice. -/
theorem c8_counterexample :
    loadPromptsFromCleanStructure
        ⟨some ⟨[("B", ⟨[("en", "Bio")],
            some [⟨1, [("en", ⟨"p1", "q1"⟩)]⟩,
                  ⟨1, [("en", ⟨"p2", "q2"⟩)]⟩]⟩)]⟩, none⟩ "EN"
      = .ok [("Bio", [⟨"B1", "Bio", "p1".trim, "q1".trim⟩,
                      ⟨"B1", "Bio", "p2".trim, "q2".trim⟩])]
    ∧ ¬ ((allPromptsOf
          [("Bio", [⟨"B1", "Bio", "p1".trim, "q1".trim⟩,
                    ⟨"B1", "Bio", "p2".trim, "q2".trim⟩])]).map Prompt.id).Nodup := by
  constructor
  · have hid : "B" ++ toString (1 : Int) = "B1" := by decide
    simp [loadPromptsFromCleanStructure, toLower_EN, cleanCollect,
          cleanCategoryPrompts, cleanCategoryName, cleanPromptResolve,
          cleanValidTranslation, alookup, jsOrStr, groupByCategory,
          pushToGroup, hid]
  · simp [allPromptsOf]

/-- C8 amended: in every `CategoryGroup` returned by `loadPrompts`
(whichever of the three loaders produced it), every prompt stored under a
group key has that key as its `category` — unconditionally — and the
union of all groups is a permutation of the flat normalized prompt list,
so its ids are duplicate-free exactly when the normalized prompts' ids
were; the loaders preserve but do not create or enforce uniqueness. -/
theorem c8_group_invariants :
    ∀ (env : SourceEnv) (language : String) (g : CategoryGroup),
      loadPrompts env language = .ok g →
      (∀ kv ∈ g, ∀ p ∈ kv.2, p.category = kv.1)
      ∧ ∃ ps : List Prompt, g = groupByCategory ps
          ∧ (((allPromptsOf g).map Prompt.id).Nodup ↔ (ps.map Prompt.id).Nodup) := by
  intro env language g h
  have hgroup : ∃ ps : List Prompt, g = groupByCategory ps := by
    unfold loadPrompts at h
    cases hu : loadPromptsFromUnified env.unified language with
    | ok g' =>
      rw [hu] at h
      injection h with h'
      subst h'
      unfold loadPromptsFromUnified at hu
      cases henv : env.unified with
      | none => rw [henv] at hu; exact absurd hu (by simp)
      | some doc =>
        rw [henv] at hu
        cases hc : loadPromptsFromCleanStructure doc language with
        | ok gc =>
          simp only [hc, Except.ok.injEq] at hu
          subst hu
          unfold loadPromptsFromCleanStructure at hc
          cases hd : doc.asClean with
          | none => rw [hd] at hc; exact absurd hc (by simp)
          | some data =>
            rw [hd] at hc
            injection hc with hc'
            exact ⟨_, hc'.symm⟩
        | error e =>
          simp only [hc] at hu
          unfold loadPromptsFromNestedStructure at hu
          cases hd : doc.asNested with
          | none => rw [hd] at hu; exact absurd hu (by simp)
          | some data =>
            rw [hd] at hu
            injection hu with hu'
            exact ⟨_, hu'.symm⟩
    | error e =>
      rw [hu] at h
      unfold loadPromptsLegacy at h
      cases hl : env.legacyFetch language with
      | none => rw [hl] at h; exact absurd h (by simp)
      | some docs =>
        rw [hl] at h
        injection h with h'
        exact ⟨_, h'.symm⟩
  obtain ⟨ps, rfl⟩ := hgroup
  refine ⟨groupByCategory_categories ps, ps, rfl, ?_⟩
  exact List.Perm.nodup_iff
    (List.Perm.map Prompt.id (allPromptsOf_groupByCategory ps))

/-- Witness for the amended C8 on a Legacy-loaded catalog. -/
theorem c8_witness :
    (∀ kv ∈ groupByCategory ([⟨"B1", "Bio", "t", "u"⟩].map legacyNormalizeDoc),
      ∀ p ∈ kv.2, p.category = kv.1)
    ∧ ∃ ps : List Prompt,
        groupByCategory ([⟨"B1", "Bio", "t", "u"⟩].map legacyNormalizeDoc)
          = groupByCategory ps
        ∧ (((allPromptsOf (groupByCategory
              ([⟨"B1", "Bio", "t", "u"⟩].map legacyNormalizeDoc))).map
                Prompt.id).Nodup
            ↔ (ps.map Prompt.id).Nodup) :=
  c8_group_invariants
    ⟨none, fun _ => some [⟨"B1", "Bio", "t", "u"⟩]⟩ "EN"
    (groupByCategory ([⟨"B1", "Bio", "t", "u"⟩].map legacyNormalizeDoc))
    (by rfl)

/-- C6: per-prompt language resolution in the Clean and Nested
normalizers. In each loader: if the requested-language translation exists
(in the loader's own sense — Clean additionally requires non-empty
`prompt` and `purpose` fields, Nested requires mere presence), it is
used; otherwise, if the English translation exists, the English text is
used; otherwise the prompt is skipped entirely — loading a document with
the untranslatable prompt yields exactly the same catalog as loading the
document with that prompt removed, so it appears in no category's list
and `findPromptById` cannot find it. Resolved prompts really appear in
the loaded catalog (membership conjuncts). -/
theorem c6_translation_fallback :
    (∀ (catId name lc : String) (cp : CleanPrompt) (t : PromptTranslation),
        cleanValidTranslation (alookup cp.translations lc) = some t →
        cleanPromptResolve catId name lc cp
          = some ⟨catId ++ toString cp.id, name, t.prompt.trim, t.purpose.trim⟩)
    ∧ (∀ (catId name lc : String) (cp : CleanPrompt) (t : PromptTranslation),
        cleanValidTranslation (alookup cp.translations lc) = none →
        cleanValidTranslation (alookup cp.translations "en") = some t →
        cleanPromptResolve catId name lc cp
          = some ⟨catId ++ toString cp.id, name, t.prompt.trim, t.purpose.trim⟩)
    ∧ (∀ (data : CleanPromptsData) (lc catId : String) (cat : CleanCategory)
        (ps : List CleanPrompt) (cp : CleanPrompt) (p : Prompt),
        (catId, cat) ∈ data.categories → cat.prompts = some ps → cp ∈ ps →
        cleanPromptResolve catId (cleanCategoryName catId cat lc) lc cp = some p →
        p ∈ allPromptsOf (groupByCategory (cleanCollect data lc)))
    ∧ (∀ (cs1 cs2 : List (String × CleanCategory)) (catId : String)
        (names : List (String × String)) (l r : List CleanPrompt)
        (cp : CleanPrompt) (lang : String) (nst : Option PromptsData),
        cleanValidTranslation (alookup cp.translations lang.toLower) = none →
        cleanValidTranslation (alookup cp.translations "en") = none →
        loadPromptsFromCleanStructure
            ⟨some ⟨cs1 ++ (catId, ⟨names, some (l ++ cp :: r)⟩) :: cs2⟩, nst⟩ lang
          = loadPromptsFromCleanStructure
            ⟨some ⟨cs1 ++ (catId, ⟨names, some (l ++ r)⟩) :: cs2⟩, nst⟩ lang)
    ∧ (∀ (name lc : String) (mp : MultilingualPrompt) (t : PromptTranslation),
        alookup mp.translations lc = some t →
        nestedPromptResolve name lc mp
          = some ⟨mp.category_id ++ toString mp.id, name,
                  t.prompt.trim, t.purpose.trim⟩)
    ∧ (∀ (name lc : String) (mp : MultilingualPrompt) (t : PromptTranslation),
        alookup mp.translations lc = none →
        alookup mp.translations "en" = some t →
        nestedPromptResolve name lc mp
          = some ⟨mp.category_id ++ toString mp.id, name,
                  t.prompt.trim, t.purpose.trim⟩)
    ∧ (∀ (data : PromptsData) (lc : String) (mp : MultilingualPrompt)
        (p : Prompt) (category : Category),
        mp ∈ data.prompts →
        nestedCategoryLookup data.categories mp.category_id = some category →
        nestedPromptResolve
            (match jsOrStr (alookup category.translations lc) with
             | some s => s
             | none =>
               match jsOrStr (alookup category.translations "en") with
               | some s => s
               | none => mp.category_id) lc mp = some p →
        p ∈ allPromptsOf (groupByCategory (nestedCollect data lc)))
    ∧ (∀ (cln : Option CleanPromptsData) (cats : List Category)
        (l r : List MultilingualPrompt) (mp : MultilingualPrompt)
        (lang : String),
        alookup mp.translations lang.toLower = none →
        alookup mp.translations "en" = none →
        loadPromptsFromNestedStructure ⟨cln, some ⟨cats, l ++ mp :: r⟩⟩ lang
          = loadPromptsFromNestedStructure ⟨cln, some ⟨cats, l ++ r⟩⟩ lang) := by
  refine ⟨?_, ?_, ?_, ?_, ?_, ?_, ?_, ?_⟩
  · intro catId name lc cp t h
    simp [cleanPromptResolve, h]
  · intro catId name lc cp t h1 h2
    simp [cleanPromptResolve, h1, h2]
  · intro data lc catId cat ps cp p hcat hps hcp hres
    rw [(allPromptsOf_groupByCategory (cleanCollect data lc)).mem_iff]
    unfold cleanCollect
    rw [List.mem_flatMap]
    refine ⟨(catId, cat), hcat, ?_⟩
    unfold cleanCategoryPrompts
    rw [hps]
    exact List.mem_filterMap.mpr ⟨cp, hcp, hres⟩
  · intro cs1 cs2 catId names l r cp lang nst h1 h2
    have hres : ∀ name, cleanPromptResolve catId name lang.toLower cp = none := by
      intro name
      simp [cleanPromptResolve, h1, h2]
    simp only [loadPromptsFromCleanStructure, cleanCollect]
    have hmid : cleanCategoryPrompts (catId, ⟨names, some (l ++ cp :: r)⟩)
        lang.toLower
        = cleanCategoryPrompts (catId, ⟨names, some (l ++ r)⟩) lang.toLower := by
      simp only [cleanCategoryPrompts, cleanCategoryName]
      rw [List.filterMap_append, List.filterMap_append,
          List.filterMap_cons_none (hres _)]
    rw [List.flatMap_append, List.flatMap_append, List.flatMap_cons,
        List.flatMap_cons, hmid]
  · intro name lc mp t h
    simp [nestedPromptResolve, h]
  · intro name lc mp t h1 h2
    simp [nestedPromptResolve, h1, h2]
  · intro data lc mp p category hmp hcat hres
    rw [(allPromptsOf_groupByCategory (nestedCollect data lc)).mem_iff]
    unfold nestedCollect
    refine List.mem_filterMap.mpr ⟨mp, hmp, ?_⟩
    rw [hcat]
    exact hres
  · intro cln cats l r mp lang h1 h2
    simp only [loadPromptsFromNestedStructure, nestedCollect]
    rw [List.filterMap_append, List.filterMap_append]
    congr 3
    rw [List.filterMap_cons_none]
    cases hcat : nestedCategoryLookup cats mp.category_id with
    | none => simp [hcat]
    | some category => simp [hcat, nestedPromptResolve, h1, h2]

/-- Witness for C6 at concrete prompts: a `de` translation used directly,
an English fallback, and untranslatable prompts dropped from a Clean and
a Nested document. -/
theorem c6_witness :
    cleanPromptResolve "B" "Bio" "de" ⟨1, [("de", ⟨"dt", "dp"⟩)]⟩
      = some ⟨"B" ++ toString (1 : Int), "Bio", "dt".trim, "dp".trim⟩
    ∧ cleanPromptResolve "B" "Bio" "de" ⟨1, [("en", ⟨"et", "ep"⟩)]⟩
      = some ⟨"B" ++ toString (1 : Int), "Bio", "et".trim, "ep".trim⟩
    ∧ loadPromptsFromCleanStructure
        ⟨some ⟨[("B", ⟨[], some ([] ++ (⟨1, []⟩ : CleanPrompt) :: [])⟩)]⟩, none⟩ "EN"
      = loadPromptsFromCleanStructure
        ⟨some ⟨[("B", ⟨[], some ([] ++ [])⟩)]⟩, none⟩ "EN"
    ∧ loadPromptsFromNestedStructure
        ⟨none, some ⟨[], [] ++ (⟨1, "B", []⟩ : MultilingualPrompt) :: []⟩⟩ "EN"
      = loadPromptsFromNestedStructure ⟨none, some ⟨[], [] ++ []⟩⟩ "EN" := by
  refine ⟨?_, ?_, ?_, ?_⟩
  · exact c6_translation_fallback.1 "B" "Bio" "de" ⟨1, [("de", ⟨"dt", "dp"⟩)]⟩
      ⟨"dt", "dp"⟩ (by rfl)
  · exact c6_translation_fallback.2.1 "B" "Bio" "de" ⟨1, [("en", ⟨"et", "ep"⟩)]⟩
      ⟨"et", "ep"⟩ (by rfl) (by rfl)
  · exact c6_translation_fallback.2.2.2.1 [] [] "B" [] [] [] ⟨1, []⟩ "EN" none
      (by rfl) (by rfl)
  · exact c6_translation_fallback.2.2.2.2.2.2.2 none [] [] [] ⟨1, "B", []⟩ "EN"
      (by rfl) (by rfl)

end JournalPrompts
